import Mathlib

/-!
Shallow embedding of the numbering / ledger subsystem of the `django-app`
repository (apps/customers, apps/orders, apps/sales, apps/payments models).

Conventions of the embedding:
* Python strings are modelled as `List Char`; Python string slicing
  `s[:2]`, `s[3:]`, `s[-6:]` becomes `List.take`, `List.drop`, `takeLast`.
* Python `int` is `Int`; `Decimal` money amounts are exact, so they are
  modelled as `Rat`.
* A Python method that can raise (`ValueError`) returns `Option`:
  `none` is the raised exception, and in that case the receiving object is
  unchanged (the real methods perform all checks before any mutation,
  which the embedding mirrors by constructing the updated record only on
  the success path).
* Django ORM state that a method consults is passed explicitly: the set of
  already stored identifiers of a tenant becomes a `List (List Char)`
  argument, `timezone.now().date()` becomes a `today : Int` argument
  (days as integers), and the query
  `filter(...__startswith=p).order_by(f).last()` becomes
  `lexMaxList (store.filter (startsWith p))` -- the lexicographic maximum,
  which is what the database returns for these string columns.
* `ObjectSet.create(...)` of a history row becomes appending the record to
  an explicit history list.
-/

/-- Lexicographic strict comparison of character lists by code point, the
order a database applies to the identifier columns involved here. -/
def lexLt : List Char → List Char → Bool
  | _, [] => false
  | [], _ :: _ => true
  | a :: as, b :: bs =>
    a.toNat < b.toNat || (a.toNat = b.toNat && lexLt as bs)

/-- Model of `queryset.order_by(column).last()`: `lexMaxList l` is the
lexicographically greatest element of `l`, `none` on an empty queryset. -/
def lexMaxList (l : List (List Char)) : Option (List Char) :=
  l.foldl
    (fun acc s =>
      match acc with
      | none => some s
      | some m => if lexLt m s then some s else some m)
    none

/-- Model of Python: `startsWith p s` is `s.startswith(p)` (the
`__startswith` queryset filter). -/
def startsWith : List Char → List Char → Bool
  | [], _ => true
  | _ :: _, [] => false
  | a :: as, b :: bs => a == b && startsWith as bs

/-- Model of the Python slice: `takeLast n s` is `s[-n:]` (the whole string when
it is shorter than `n`). -/
def takeLast (n : Nat) (l : List Char) : List Char :=
  l.drop (l.length - n)

/-- Fuel-driven digit expansion of a natural number, most significant digit
first; `fuel` only forces termination and is irrelevant once `n < fuel`. -/
def digitsAux : Nat → Nat → List Char
  | 0, _ => []
  | fuel + 1, n =>
    if n < 10 then [Nat.digitChar n]
    else digitsAux fuel (n / 10) ++ [Nat.digitChar (n % 10)]

/-- Decimal digit string of `n`, as produced by Python `str(n)` /
`"{n}".format` for a non-negative `n`. -/
def digitsOf (n : Nat) : List Char := digitsAux (n + 1) n

/-- Model of the Python format: `padNum w n` is `f"{n:0wd}"`: the decimal digits
of `n`, left-padded with `'0'` to width `w` (never truncated). -/
def padNum (w n : Nat) : List Char :=
  List.replicate (w - (digitsOf n).length) '0' ++ digitsOf n

/-- Numeric value of a digit string, accumulator form. -/
def natValAux (acc : Nat) (l : List Char) : Nat :=
  l.foldl (fun a c => 10 * a + (c.toNat - 48)) acc

/-- Numeric value of a digit string (most significant digit first). -/
def natVal (l : List Char) : Nat := natValAux 0 l

/-- All characters are decimal digits `'0'..'9'`. -/
def allDigits (l : List Char) : Prop :=
  ∀ c ∈ l, 48 ≤ c.toNat ∧ c.toNat ≤ 57

instance (l : List Char) : Decidable (allDigits l) := by
  unfold allDigits; infer_instance

/-- Model of Python `int(str)`: `parseDigits l` parses the identifier suffixes in
scope: `some` of the numeric value on a non-empty all-digit string,
`none` (a raised `ValueError`) otherwise. -/
def parseDigits (l : List Char) : Option Nat :=
  if l.isEmpty then none
  else if allDigits l then some (natVal l) else none

section Loyalty

/-- Balance-bearing fields of `CustomerLoyalty`
(apps/customers/models.py). -/
structure CustomerLoyalty where
  points_balance : Int
  total_points_earned : Int
  total_points_redeemed : Int
  deriving DecidableEq

/-- A row of `LoyaltyTransaction` as created by the loyalty operations. -/
structure LoyaltyTransaction where
  transaction_type : String
  points : Int
  balance_after : Int
  deriving DecidableEq

/-- Source `CustomerLoyalty.add_points`: unconditionally credits the balance and
the lifetime-earned accumulator and appends an `EARN` history row whose
`points` field is the raw argument. -/
def CustomerLoyalty.add_points (a : CustomerLoyalty) (points : Int) :
    CustomerLoyalty × LoyaltyTransaction :=
  let a' := { a with
    points_balance := a.points_balance + points
    total_points_earned := a.total_points_earned + points }
  (a', { transaction_type := "EARN", points := points,
         balance_after := a'.points_balance })

/-- Source `CustomerLoyalty.redeem_points`: raises (`none`) when
`points > points_balance`, otherwise debits the balance, credits the
lifetime-redeemed accumulator and appends a `REDEEM` row whose `points`
field is the raw (positive) argument. -/
def CustomerLoyalty.redeem_points (a : CustomerLoyalty) (points : Int) :
    Option (CustomerLoyalty × LoyaltyTransaction) :=
  if points > a.points_balance then none
  else
    let a' := { a with
      points_balance := a.points_balance - points
      total_points_redeemed := a.total_points_redeemed + points }
    some (a', { transaction_type := "REDEEM", points := points,
                balance_after := a'.points_balance })

/-- One credit or debit request against a loyalty account. -/
inductive LoyaltyOp where
  | add (points : Int)
  | redeem (points : Int)
  deriving DecidableEq

/-- Amount carried by a loyalty operation. -/
def LoyaltyOp.amount : LoyaltyOp → Int
  | .add p => p
  | .redeem p => p

/-- Apply one loyalty operation; a raised exception leaves the account and
its history unchanged. -/
def loyaltyStep (s : CustomerLoyalty × List LoyaltyTransaction)
    (op : LoyaltyOp) : CustomerLoyalty × List LoyaltyTransaction :=
  match op with
  | .add p =>
    let r := s.1.add_points p
    (r.1, s.2 ++ [r.2])
  | .redeem p =>
    match s.1.redeem_points p with
    | none => s
    | some r => (r.1, s.2 ++ [r.2])

/-- A freshly created loyalty account (all counters default to `0`). -/
def freshLoyalty : CustomerLoyalty :=
  { points_balance := 0, total_points_earned := 0, total_points_redeemed := 0 }

/-- Run a sequence of loyalty operations from a fresh account. -/
def runLoyalty (ops : List LoyaltyOp) :
    CustomerLoyalty × List LoyaltyTransaction :=
  ops.foldl loyaltyStep (freshLoyalty, [])

/-- Sum of the raw `points` fields of the history rows. -/
def pointsSum (h : List LoyaltyTransaction) : Int :=
  (h.map (fun t => t.points)).sum

/-- Sum of the history rows with `REDEEM` rows counted negatively. -/
def signedPointsSum (h : List LoyaltyTransaction) : Int :=
  (h.map (fun t =>
    if t.transaction_type = "REDEEM" then -t.points else t.points)).sum

end Loyalty

section WalletDefs

/-- Balance and status fields of `Wallet` (apps/payments/models.py). -/
structure Wallet where
  balance : Rat
  cashback_balance : Rat
  promotional_balance : Rat
  is_active : Bool
  is_frozen : Bool
  deriving DecidableEq

/-- A row of `WalletTransaction` as created by the wallet operations. -/
structure WalletTransaction where
  transaction_type : String
  amount : Rat
  balance_after : Rat
  deriving DecidableEq

/-- Source `Wallet.total_balance`: main + cashback + promotional buckets. -/
def Wallet.total_balance (w : Wallet) : Rat :=
  w.balance + w.cashback_balance + w.promotional_balance

/-- Source `Wallet.add_balance`: raises on a non-positive amount, otherwise
credits the main bucket and records a row whose `balance_after` is the
new main-bucket balance (`self.balance`). -/
def Wallet.add_balance (w : Wallet) (amount : Rat)
    (transaction_type : String) :
    Option (Wallet × WalletTransaction) :=
  if amount ≤ 0 then none
  else
    let w' := { w with balance := w.balance + amount }
    some (w', { transaction_type := transaction_type, amount := amount,
                balance_after := w'.balance })

/-- One drain step of `Wallet.deduct_balance` -- the body shared by the
two identical `if remaining > 0 and bucket > 0` blocks of the source:
deduct `min(remaining, bucket)` from the bucket.  Returns the new bucket
value and the new remaining amount. -/
def drainBucket (remaining bucket : Rat) : Rat × Rat :=
  if 0 < remaining ∧ 0 < bucket then
    let d := min remaining bucket
    (bucket - d, remaining - d)
  else (bucket, remaining)

/-- Source `Wallet.deduct_balance`: raises on a non-positive amount or when the
amount exceeds `total_balance`; otherwise drains promotional, then
cashback, then main, and records a row with the negated amount and the new
`total_balance`.  No frozen/inactive check is performed. -/
def Wallet.deduct_balance (w : Wallet) (amount : Rat)
    (transaction_type : String) :
    Option (Wallet × WalletTransaction) :=
  if amount ≤ 0 then none
  else if amount > w.total_balance then none
  else
    let p := drainBucket amount w.promotional_balance
    let w1 := { w with promotional_balance := p.1 }
    let q := drainBucket p.2 w1.cashback_balance
    let w2 := { w1 with cashback_balance := q.1 }
    let w3 :=
      if 0 < q.2 then { w2 with balance := w2.balance - q.2 }
      else w2
    some (w3, { transaction_type := transaction_type, amount := -amount,
                balance_after := w3.total_balance })

/-- One credit or debit request against a wallet. -/
inductive WalletOp where
  | add (amount : Rat)
  | deduct (amount : Rat)
  deriving DecidableEq

/-- Apply one wallet operation; a raised exception leaves the wallet and
its history unchanged. -/
def walletStep (s : Wallet × List WalletTransaction) (op : WalletOp) :
    Wallet × List WalletTransaction :=
  match op with
  | .add a =>
    match s.1.add_balance a "TOP_UP" with
    | none => s
    | some r => (r.1, s.2 ++ [r.2])
  | .deduct a =>
    match s.1.deduct_balance a "PURCHASE" with
    | none => s
    | some r => (r.1, s.2 ++ [r.2])

/-- Run a sequence of wallet operations from a given wallet. -/
def runWallet (w : Wallet) (ops : List WalletOp) :
    Wallet × List WalletTransaction :=
  ops.foldl walletStep (w, [])

/-- All three buckets of the wallet are non-negative. -/
def Wallet.bucketsNonneg (w : Wallet) : Prop :=
  0 ≤ w.balance ∧ 0 ≤ w.cashback_balance ∧ 0 ≤ w.promotional_balance

end WalletDefs

section GiftCardDefs

/-- Fields of `GiftCard` used by redemption (apps/payments/models.py).
Dates are modelled as integers (`expiry_date >= today` is the source's
date comparison). -/
structure GiftCard where
  code : List Char
  gift_card_status : String
  current_balance : Rat
  expiry_date : Int
  minimum_order_amount : Rat
  times_used : Nat
  first_used_at : Option Int
  last_used_at : Option Int
  deriving DecidableEq

/-- A row of `GiftCardTransaction` as created by `redeem`. -/
structure GiftCardTransaction where
  transaction_type : String
  amount : Rat
  balance_after : Rat
  deriving DecidableEq

/-- Source `GiftCard.is_valid`: status is `ACTIVE`, balance positive, and the
expiry date has not passed (`expiry_date >= timezone.now().date()`). -/
def GiftCard.is_valid (g : GiftCard) (today : Int) : Bool :=
  decide (g.gift_card_status = "ACTIVE") &&
  decide (0 < g.current_balance) &&
  decide (today ≤ g.expiry_date)

/-- Source `GiftCard.can_redeem`: the card is valid, the amount does not exceed
the balance, and (when an order is supplied) the order subtotal meets the
card's minimum.  No check that the amount is positive. -/
def GiftCard.can_redeem (g : GiftCard) (amount : Rat)
    (order : Option Rat) (today : Int) : Bool :=
  if ¬ g.is_valid today then false
  else if amount > g.current_balance then false
  else
    match order with
    | some subtotal => if subtotal < g.minimum_order_amount then false else true
    | none => true

/-- Source `GiftCard.redeem`: raises (`none`) when `can_redeem` fails, otherwise
debits the balance, bumps the usage counters, transitions the status to
`REDEEMED` when the balance reaches zero, and records a `REDEMPTION` row
with the negated amount and the new balance.  `now` models
`timezone.now()`. -/
def GiftCard.redeem (g : GiftCard) (amount : Rat) (order : Option Rat)
    (today now : Int) : Option (GiftCard × GiftCardTransaction) :=
  if ¬ g.can_redeem amount order today then none
  else
    let balance' := g.current_balance - amount
    let g' := { g with
      current_balance := balance'
      times_used := g.times_used + 1
      first_used_at :=
        match g.first_used_at with
        | none => some now
        | some t => some t
      last_used_at := some now
      gift_card_status :=
        if balance' ≤ 0 then "REDEEMED" else g.gift_card_status }
    some (g', { transaction_type := "REDEMPTION", amount := -amount,
                balance_after := g'.current_balance })

/-- Source `GiftCard.save`: generates a code only when the `code` field is empty
(falsy).  The random `generate_code` draw is passed in as `newCode`. -/
def GiftCard.save (g : GiftCard) (newCode : List Char) : GiftCard :=
  if g.code.isEmpty then { g with code := newCode } else g

end GiftCardDefs

section Generators

/-- Shared max-and-increment core of the dated numbering methods
(`generate_order_number`, `generate_sale_number`, `generate_payment_id`):
take the lexicographically last stored identifier starting with `scope`,
parse its trailing `w` digits (`identifier[-w:]`), increment (starting at
`1` on an empty scope), zero-pad to width `w`.  `none` models the
uncaught `ValueError` of `int(...)` on a corrupt suffix. -/
def nextFromStore (scope : List Char) (w : Nat)
    (store : List (List Char)) : Option (List Char) :=
  match lexMaxList (store.filter (fun s => startsWith scope s)) with
  | none => some (scope ++ padNum w 1)
  | some last =>
    match parseDigits (takeLast w last) with
    | none => none
    | some n => some (scope ++ padNum w (n + 1))

/-- Source `Order.generate_order_number`: scope `entity[:2] + "O" + YYYYMMDD`,
width 6.  `store` is the set of order numbers already stored for the
tenant. -/
def generate_order_number (entity dateStr : List Char)
    (store : List (List Char)) : Option (List Char) :=
  nextFromStore (entity.take 2 ++ ['O'] ++ dateStr) 6 store

/-- Source `Sale.generate_sale_number`: scope `entity[:2] + "S" + YYYYMMDD`,
width 4. -/
def generate_sale_number (entity dateStr : List Char)
    (store : List (List Char)) : Option (List Char) :=
  nextFromStore (entity.take 2 ++ ['S'] ++ dateStr) 4 store

/-- Source `Payment.generate_payment_id`: scope `entity[:2] + "PAY" + YYYYMMDD`,
width 6. -/
def generate_payment_id (entity dateStr : List Char)
    (store : List (List Char)) : Option (List Char) :=
  nextFromStore (entity.take 2 ++ ['P', 'A', 'Y'] ++ dateStr) 6 store

/-- Source `Customer.generate_customer_code`: scope `entity[:2] + "C"`, width 5,
parsing `customer_code[3:]`; an unparsable suffix falls back to `1`
(the `except ValueError` branch). -/
def generate_customer_code (entity : List Char)
    (store : List (List Char)) : List Char :=
  let pfx := entity.take 2 ++ ['C']
  match lexMaxList (store.filter (fun s => startsWith pfx s)) with
  | none => pfx ++ padNum 5 1
  | some last =>
    match parseDigits (last.drop 3) with
    | none => pfx ++ padNum 5 1
    | some n => pfx ++ padNum 5 (n + 1)

/-- Source `Order.generate_display_id`: prefix `entity[:2]`, no padding; reads
the most recently inserted order (`order_by('-id').first()`), whose
display id is the last element of `store` (insertion order); a missing or
empty display id, or an unparsable `display_id[2:]`, falls back to
`1000`. -/
def generate_display_id (entity : List Char)
    (store : List (List Char)) : List Char :=
  let pfx := entity.take 2
  let n :=
    match store.getLast? with
    | none => 1000
    | some d =>
      if d.isEmpty then 1000
      else
        match parseDigits (d.drop 2) with
        | none => 1000
        | some k => k + 1
  pfx ++ digitsOf n

/-- Run `N` sequential order-number allocations against an initially
empty table, each saving its result before the next runs. -/
def allocOrderNumbers (entity dateStr : List Char) :
    Nat → Option (List (List Char))
  | 0 => some []
  | n + 1 =>
    (allocOrderNumbers entity dateStr n).bind fun store =>
      (generate_order_number entity dateStr store).map fun id =>
        store ++ [id]

/-- Run `N` sequential sale-number allocations against an initially empty
table. -/
def allocSaleNumbers (entity dateStr : List Char) :
    Nat → Option (List (List Char))
  | 0 => some []
  | n + 1 =>
    (allocSaleNumbers entity dateStr n).bind fun store =>
      (generate_sale_number entity dateStr store).map fun id =>
        store ++ [id]

end Generators

section Saves

/-- Identifier fields of `Order` (apps/orders/models.py). -/
structure Order where
  entity : List Char
  order_number : List Char
  display_id : List Char
  deriving DecidableEq

/-- Source `Order.save`: generates `order_number` and `display_id` only when the
respective field is empty (falsy); `none` propagates the `ValueError`
that `generate_order_number` can raise. -/
def Order.save (o : Order) (dateStr : List Char)
    (numberStore displayStore : List (List Char)) : Option Order :=
  match
    (if o.order_number.isEmpty
     then generate_order_number o.entity dateStr numberStore
     else some o.order_number) with
  | none => none
  | some num =>
    let disp :=
      if o.display_id.isEmpty
      then generate_display_id o.entity displayStore
      else o.display_id
    some { o with order_number := num, display_id := disp }

/-- Identifier and amount fields of `Payment` (apps/payments/models.py). -/
structure Payment where
  entity : List Char
  payment_id : List Char
  amount : Rat
  gateway_fee : Rat
  net_amount : Rat
  deriving DecidableEq

/-- Source `Payment.save`: generates `payment_id` only when the field is empty,
then recomputes `net_amount = amount - gateway_fee`. -/
def Payment.save (p : Payment) (dateStr : List Char)
    (store : List (List Char)) : Option Payment :=
  match
    (if p.payment_id.isEmpty
     then generate_payment_id p.entity dateStr store
     else some p.payment_id) with
  | none => none
  | some pid =>
    some { p with payment_id := pid,
                  net_amount := p.amount - p.gateway_fee }

end Saves

section DerivedDefs

/-- The `k`-th identifier of the numbering stream with the given scope and
width. -/
def seqIdent (scope : List Char) (w k : Nat) : List Char :=
  scope ++ padNum w k

/-- The first `n` identifiers of a numbering stream, in allocation
order. -/
def seqIdentList (scope : List Char) (w n : Nat) : List (List Char) :=
  (List.range n).map (fun i => seqIdent scope w (i + 1))

/-- The per-state ledger invariant for a loyalty account: the balance is
the `EARN`-minus-`REDEEM` sum of the history and equals
earned minus redeemed. -/
def loyaltyInv (s : CustomerLoyalty × List LoyaltyTransaction) : Prop :=
  s.1.points_balance = signedPointsSum s.2 ∧
  s.1.points_balance = s.1.total_points_earned - s.1.total_points_redeemed

/-- Concrete wallet of testable property 5 of the spec: promotional 10,
cashback 5, main 100. -/
def c4wallet : Wallet :=
  { balance := 100, cashback_balance := 5, promotional_balance := 10,
    is_active := true, is_frozen := false }

/-- Gift card of testable property 8 of the spec: active, balance 500,
unexpired (`today = 0`, expiry 1), no minimum order. -/
def c5card : GiftCard :=
  { code := "GC1".data, gift_card_status := "ACTIVE", current_balance := 500,
    expiry_date := 1, minimum_order_amount := 0, times_used := 0,
    first_used_at := none, last_used_at := none }

/-- The state of `c5card` after redeeming its full balance. -/
def c5after : GiftCard :=
  { code := "GC1".data, gift_card_status := "REDEEMED", current_balance := 0,
    expiry_date := 1, minimum_order_amount := 0, times_used := 1,
    first_used_at := some 0, last_used_at := some 0 }

end DerivedDefs

section NumeralLemmas

lemma digitsAux_fuel (n : Nat) : ∀ f, n < f → digitsAux f n = digitsOf n := by
  induction n using Nat.strong_induction_on with
  | _ n ih =>
    intro f hf
    cases f with
    | zero => omega
    | succ f =>
      unfold digitsOf
      by_cases h10 : n < 10
      · simp [digitsAux, h10]
      · have hdiv : n / 10 < n := Nat.div_lt_self (by omega) (by omega)
        have h1 : digitsAux (f + 1) n =
            digitsAux f (n / 10) ++ [Nat.digitChar (n % 10)] := by
          simp [digitsAux, h10]
        have h2 : digitsAux (n + 1) n =
            digitsAux n (n / 10) ++ [Nat.digitChar (n % 10)] := by
          simp [digitsAux, h10]
        rw [h1, h2, ih (n / 10) hdiv f (by omega), ih (n / 10) hdiv n (by omega)]

lemma digitsOf_eq (n : Nat) :
    digitsOf n = if n < 10 then [Nat.digitChar n]
      else digitsOf (n / 10) ++ [Nat.digitChar (n % 10)] := by
  by_cases h10 : n < 10
  · simp [digitsOf, digitsAux, h10]
  · have hdiv : n / 10 < n := Nat.div_lt_self (by omega) (by omega)
    have h2 : digitsOf n = digitsAux n (n / 10) ++ [Nat.digitChar (n % 10)] := by
      simp [digitsOf, digitsAux, h10]
    rw [h2, digitsAux_fuel (n / 10) n hdiv, if_neg h10]

lemma digitChar_toNat (d : Nat) (h : d < 10) :
    (Nat.digitChar d).toNat = 48 + d := by
  interval_cases d <;> rfl

lemma digitsOf_ne_nil (n : Nat) : digitsOf n ≠ [] := by
  rw [digitsOf_eq]
  split <;> simp

lemma allDigits_digitsOf (n : Nat) : allDigits (digitsOf n) := by
  induction n using Nat.strong_induction_on with
  | _ n ih =>
    rw [digitsOf_eq]
    by_cases h10 : n < 10
    · simp only [if_pos h10, allDigits, List.mem_singleton]
      intro c hc
      subst hc
      rw [digitChar_toNat n h10]
      omega
    · have hdiv : n / 10 < n := Nat.div_lt_self (by omega) (by omega)
      simp only [if_neg h10, allDigits, List.mem_append, List.mem_singleton]
      intro c hc
      rcases hc with hc | hc
      · exact ih (n / 10) hdiv c hc
      · subst hc
        rw [digitChar_toNat (n % 10) (by omega)]
        omega

lemma digitsOf_length_le (w n : Nat) (hw : 0 < w) (h : n < 10 ^ w) :
    (digitsOf n).length ≤ w := by
  induction n using Nat.strong_induction_on generalizing w with
  | _ n ih =>
    rw [digitsOf_eq]
    by_cases h10 : n < 10
    · simp only [if_pos h10, List.length_singleton]
      omega
    · have hdiv : n / 10 < n := Nat.div_lt_self (by omega) (by omega)
      have hw2 : 2 ≤ w := by
        by_contra hc
        have hw1 : w = 1 := by omega
        rw [hw1] at h
        simp at h
        omega
      have hn10 : n / 10 < 10 ^ (w - 1) := by
        rw [Nat.div_lt_iff_lt_mul (by omega)]
        calc n < 10 ^ w := h
        _ = 10 ^ (w - 1) * 10 := by
            rw [← Nat.pow_succ]
            congr 1
            omega
      have := ih (n / 10) hdiv (w - 1) (by omega) hn10
      simp only [if_neg h10, List.length_append, List.length_singleton]
      omega

lemma natValAux_eq (l : List Char) : ∀ a : Nat,
    natValAux a l = a * 10 ^ l.length + natVal l := by
  induction l with
  | nil => intro a; simp [natValAux, natVal]
  | cons c t ih =>
    intro a
    have h1 : natValAux a (c :: t) = natValAux (10 * a + (c.toNat - 48)) t := by
      simp [natValAux]
    have h2 : natVal (c :: t) = natValAux (c.toNat - 48) t := by
      simp [natVal, natValAux]
    rw [h1, ih, h2, ih]
    ring_nf
    simp [List.length_cons, Nat.pow_succ]
    ring

lemma natVal_append (l1 l2 : List Char) :
    natVal (l1 ++ l2) = natVal l1 * 10 ^ l2.length + natVal l2 := by
  have h : natVal (l1 ++ l2) = natValAux (natVal l1) l2 := by
    simp [natVal, natValAux, List.foldl_append]
  rw [h, natValAux_eq]

lemma natVal_digitsOf (n : Nat) : natVal (digitsOf n) = n := by
  induction n using Nat.strong_induction_on with
  | _ n ih =>
    rw [digitsOf_eq]
    by_cases h10 : n < 10
    · simp only [if_pos h10]
      have : natVal [Nat.digitChar n] = (Nat.digitChar n).toNat - 48 := by
        simp [natVal, natValAux]
      rw [this, digitChar_toNat n h10]
      omega
    · have hdiv : n / 10 < n := Nat.div_lt_self (by omega) (by omega)
      simp only [if_neg h10]
      rw [natVal_append, ih (n / 10) hdiv]
      have : natVal [Nat.digitChar (n % 10)] = (Nat.digitChar (n % 10)).toNat - 48 := by
        simp [natVal, natValAux]
      rw [this, digitChar_toNat (n % 10) (by omega)]
      simp [List.length_singleton]
      omega

lemma natVal_replicate_zero (z : Nat) :
    natVal (List.replicate z '0') = 0 := by
  induction z with
  | zero => simp [natVal, natValAux]
  | succ z ih =>
    have : natVal (List.replicate (z + 1) '0') = natValAux 0 (List.replicate z '0') := by
      simp [natVal, natValAux, List.replicate_succ, List.foldl_cons]
    rw [this]
    exact ih

lemma natVal_padNum (w n : Nat) : natVal (padNum w n) = n := by
  unfold padNum
  rw [natVal_append, natVal_replicate_zero, natVal_digitsOf]
  simp

lemma padNum_length (w n : Nat) (hw : 0 < w) (h : n < 10 ^ w) :
    (padNum w n).length = w := by
  unfold padNum
  have hle := digitsOf_length_le w n hw h
  simp [List.length_append, List.length_replicate]
  omega

lemma allDigits_padNum (w n : Nat) : allDigits (padNum w n) := by
  unfold padNum
  intro c hc
  rcases List.mem_append.mp hc with hc | hc
  · have : c = '0' := List.eq_of_mem_replicate hc
    subst this
    exact ⟨by decide, by decide⟩
  · exact allDigits_digitsOf n c hc

lemma padNum_ne_nil (w n : Nat) : padNum w n ≠ [] := by
  unfold padNum
  intro h
  rcases List.append_eq_nil.mp h with ⟨_, h2⟩
  exact digitsOf_ne_nil n h2

lemma parseDigits_padNum (w n : Nat) : parseDigits (padNum w n) = some n := by
  unfold parseDigits
  rw [if_neg, if_pos (allDigits_padNum w n), natVal_padNum]
  simp [List.isEmpty_iff, padNum_ne_nil w n]

lemma natVal_lt (l : List Char) (h : allDigits l) :
    natVal l < 10 ^ l.length := by
  induction l with
  | nil => simp [natVal, natValAux]
  | cons c t ih =>
    have hc := h c (List.mem_cons_self c t)
    have ht : allDigits t := fun x hx => h x (List.mem_cons_of_mem c hx)
    have h1 : natVal (c :: t) = natValAux (c.toNat - 48) t := by
      simp [natVal, natValAux]
    rw [h1, natValAux_eq]
    have hd : c.toNat - 48 ≤ 9 := by omega
    have := ih ht
    have hpow : (10:Nat) ^ (c :: t).length = 10 * 10 ^ t.length := by
      simp [List.length_cons, Nat.pow_succ]
      ring
    rw [hpow]
    nlinarith

end NumeralLemmas

section LexLemmas

lemma lexLt_of_natVal_lt : ∀ (a b : List Char), a.length = b.length →
    allDigits a → allDigits b → natVal a < natVal b → lexLt a b = true := by
  intro a
  induction a with
  | nil =>
    intro b hlen _ _ hv
    cases b with
    | nil => simp [natVal, natValAux] at hv
    | cons c t => simp at hlen
  | cons x xs ih =>
    intro b hlen ha hb hv
    cases b with
    | nil => simp at hlen
    | cons y ys =>
      have hlen' : xs.length = ys.length := by simpa using hlen
      have hx := ha x (List.mem_cons_self x xs)
      have hy := hb y (List.mem_cons_self y ys)
      have hxs : allDigits xs := fun c hc => ha c (List.mem_cons_of_mem x hc)
      have hys : allDigits ys := fun c hc => hb c (List.mem_cons_of_mem y hc)
      have hvx : natVal (x :: xs) = (x.toNat - 48) * 10 ^ xs.length + natVal xs := by
        have : natVal (x :: xs) = natValAux (x.toNat - 48) xs := by
          simp [natVal, natValAux]
        rw [this, natValAux_eq]
      have hvy : natVal (y :: ys) = (y.toNat - 48) * 10 ^ ys.length + natVal ys := by
        have : natVal (y :: ys) = natValAux (y.toNat - 48) ys := by
          simp [natVal, natValAux]
        rw [this, natValAux_eq]
      rw [hvx, hvy] at hv
      have hxlt := natVal_lt xs hxs
      have hylt := natVal_lt ys hys
      rw [hlen'] at hv hxlt
      by_cases hcase : x.toNat < y.toNat
      · simp [lexLt, hcase]
      · have heq : x.toNat = y.toNat := by
          by_contra hne
          have h1 : y.toNat - 48 + 1 ≤ x.toNat - 48 := by omega
          have h2 : (y.toNat - 48 + 1) * 10 ^ ys.length ≤
              (x.toNat - 48) * 10 ^ ys.length :=
            Nat.mul_le_mul_right _ h1
          have h3 : (y.toNat - 48 + 1) * 10 ^ ys.length =
              (y.toNat - 48) * 10 ^ ys.length + 10 ^ ys.length := by ring
          linarith
        have hvrec : natVal xs < natVal ys := by
          rw [heq] at hv
          exact Nat.lt_of_add_lt_add_left hv
        have := ih ys hlen' hxs hys hvrec
        simp [lexLt, heq, this]

lemma lexLt_append_left (p : List Char) (a b : List Char) :
    lexLt (p ++ a) (p ++ b) = lexLt a b := by
  induction p with
  | nil => rfl
  | cons c t ih => simp [lexLt, ih]

lemma startsWith_append (p r : List Char) : startsWith p (p ++ r) = true := by
  induction p with
  | nil => rfl
  | cons c t ih => simp [startsWith, ih]

lemma takeLast_append (a b : List Char) (w : Nat) (h : b.length = w) :
    takeLast w (a ++ b) = b := by
  unfold takeLast
  have : (a ++ b).length - w = a.length := by
    simp [List.length_append, h]
  rw [this, List.drop_left a b]

lemma lexMaxList_mem : ∀ (l : List (List Char)) (acc : Option (List Char))
    (m : List Char),
    l.foldl (fun acc s =>
      match acc with
      | none => some s
      | some m => if lexLt m s then some s else some m) acc = some m →
    acc = some m ∨ m ∈ l := by
  intro l
  induction l with
  | nil => intro acc m h; exact Or.inl h
  | cons s t ih =>
    intro acc m h
    simp only [List.foldl_cons] at h
    rcases ih _ m h with hstep | hmem
    · match acc with
      | none =>
        simp at hstep
        exact Or.inr (hstep ▸ List.mem_cons_self s t)
      | some m0 =>
        by_cases hlt : lexLt m0 s
        · simp [hlt] at hstep
          exact Or.inr (hstep ▸ List.mem_cons_self s t)
        · simp [hlt] at hstep
          exact Or.inl (by rw [hstep])
    · exact Or.inr (List.mem_cons_of_mem s hmem)

lemma lexMaxList_append_big (l : List (List Char)) (x : List Char)
    (h : ∀ y ∈ l, lexLt y x = true) :
    lexMaxList (l ++ [x]) = some x := by
  unfold lexMaxList
  rw [List.foldl_append]
  rcases hm : l.foldl (fun acc s =>
      match acc with
      | none => some s
      | some m => if lexLt m s then some s else some m) none with _ | m
  · rw [hm]
    rfl
  · have hmem : m ∈ l := by
      rcases lexMaxList_mem l none m hm with h1 | h2
      · simp at h1
      · exact h2
    rw [hm]
    simp [List.foldl_cons, List.foldl_nil, h m hmem]

end LexLemmas

section AllocLemmas

lemma seqIdent_lexLt (scope : List Char) (w j k : Nat) (hw : 0 < w)
    (hjk : j < k) (hk : k < 10 ^ w) :
    lexLt (seqIdent scope w j) (seqIdent scope w k) = true := by
  unfold seqIdent
  rw [lexLt_append_left]
  exact lexLt_of_natVal_lt _ _
    (by rw [padNum_length w j hw (by omega), padNum_length w k hw hk])
    (allDigits_padNum w j) (allDigits_padNum w k)
    (by rw [natVal_padNum, natVal_padNum]; exact hjk)

lemma seqIdentList_succ (scope : List Char) (w n : Nat) :
    seqIdentList scope w (n + 1) =
      seqIdentList scope w n ++ [seqIdent scope w (n + 1)] := by
  unfold seqIdentList
  rw [List.range_succ n, List.map_append]
  rfl

lemma seqIdentList_filter (scope : List Char) (w n : Nat) :
    (seqIdentList scope w n).filter (fun s => startsWith scope s) =
      seqIdentList scope w n := by
  apply List.filter_eq_self.mpr
  intro s hs
  rcases List.mem_map.mp hs with ⟨i, _, hi⟩
  subst hi
  exact startsWith_append scope (padNum w (i + 1))

lemma nextFromStore_idents (scope : List Char) (w : Nat) (hw : 0 < w)
    (k : Nat) (hk : k < 10 ^ w) :
    nextFromStore scope w (seqIdentList scope w k) =
      some (seqIdent scope w (k + 1)) := by
  unfold nextFromStore
  rw [seqIdentList_filter]
  cases k with
  | zero =>
    simp [seqIdentList, lexMaxList, seqIdent]
  | succ k =>
    have hmax : lexMaxList (seqIdentList scope w (k + 1)) =
        some (seqIdent scope w (k + 1)) := by
      rw [seqIdentList_succ]
      apply lexMaxList_append_big
      intro y hy
      rcases List.mem_map.mp hy with ⟨i, hi, hiy⟩
      subst hiy
      exact seqIdent_lexLt scope w (i + 1) (k + 1) hw
        (by simp [List.mem_range] at hi; omega) hk
    have htake : takeLast w (seqIdent scope w (k + 1)) = padNum w (k + 1) := by
      unfold seqIdent
      exact takeLast_append _ _ w (padNum_length w (k + 1) hw hk)
    rw [hmax]
    simp only [htake, parseDigits_padNum]
    rfl

lemma seqIdent_injective (scope : List Char) (w : Nat) :
    Function.Injective (fun k => seqIdent scope w k) := by
  intro j k h
  simp only [seqIdent] at h
  have h2 : padNum w j = padNum w k := List.append_cancel_left h
  have := natVal_padNum w j
  rw [h2, natVal_padNum] at this
  omega

lemma seqIdentList_nodup (scope : List Char) (w n : Nat) :
    (seqIdentList scope w n).Nodup := by
  unfold seqIdentList
  exact (List.nodup_range n).map
    (fun a b hab => by
      have := seqIdent_injective scope w hab
      omega)

lemma allocOrderNumbers_eq (entity dateStr : List Char) (N : Nat)
    (h : N ≤ 999999) :
    allocOrderNumbers entity dateStr N =
      some (seqIdentList (entity.take 2 ++ ['O'] ++ dateStr) 6 N) := by
  induction N with
  | zero => rfl
  | succ n ih =>
    have hn : n ≤ 999999 := by omega
    unfold allocOrderNumbers
    rw [ih hn]
    have hgen : generate_order_number entity dateStr
        (seqIdentList (entity.take 2 ++ ['O'] ++ dateStr) 6 n) =
        some (seqIdent (entity.take 2 ++ ['O'] ++ dateStr) 6 (n + 1)) := by
      unfold generate_order_number
      exact nextFromStore_idents _ 6 (by omega) n (by norm_num; omega)
    rw [Option.some_bind, hgen, seqIdentList_succ]
    rfl

lemma allocSaleNumbers_eq (entity dateStr : List Char) (N : Nat)
    (h : N ≤ 9999) :
    allocSaleNumbers entity dateStr N =
      some (seqIdentList (entity.take 2 ++ ['S'] ++ dateStr) 4 N) := by
  induction N with
  | zero => rfl
  | succ n ih =>
    have hn : n ≤ 9999 := by omega
    unfold allocSaleNumbers
    rw [ih hn]
    have hgen : generate_sale_number entity dateStr
        (seqIdentList (entity.take 2 ++ ['S'] ++ dateStr) 4 n) =
        some (seqIdent (entity.take 2 ++ ['S'] ++ dateStr) 4 (n + 1)) := by
      unfold generate_sale_number
      exact nextFromStore_idents _ 4 (by omega) n (by norm_num; omega)
    rw [Option.some_bind, hgen, seqIdentList_succ]
    rfl

end AllocLemmas

section LedgerLemmas

lemma drainBucket_rem_nonneg (r b : Rat) (h : 0 ≤ r) :
    0 ≤ (drainBucket r b).2 := by
  unfold drainBucket
  split_ifs with hc
  · simp only
    have := min_le_left r b
    linarith
  · exact h

lemma drainBucket_rem_le (r b : Rat) : (drainBucket r b).2 ≤ r := by
  unfold drainBucket
  split_ifs with hc
  · simp only
    have : (0:Rat) ≤ min r b := le_min (le_of_lt hc.1) (le_of_lt hc.2)
    linarith
  · exact le_refl r

lemma drainBucket_conserve (r b : Rat) :
    b - (drainBucket r b).1 = r - (drainBucket r b).2 := by
  unfold drainBucket
  split_ifs with hc <;> simp

lemma drainBucket_bucket_nonneg (r b : Rat) (h : 0 ≤ b) :
    0 ≤ (drainBucket r b).1 := by
  unfold drainBucket
  split_ifs with hc
  · simp only
    have := min_le_right r b
    linarith
  · exact h

/-- Everything a successful `deduct_balance` guarantees: the guards held,
the total dropped by exactly the amount, the history row records the
negated amount and the post-total, and the status flags are untouched. -/
lemma deduct_balance_some (w : Wallet) (a : Rat) (t : String)
    (w' : Wallet) (tr : WalletTransaction)
    (h : w.deduct_balance a t = some (w', tr)) :
    0 < a ∧ a ≤ w.total_balance ∧
    w'.total_balance = w.total_balance - a ∧
    tr.amount = -a ∧ tr.balance_after = w'.total_balance ∧
    w'.is_frozen = w.is_frozen ∧ w'.is_active = w.is_active := by
  unfold Wallet.deduct_balance at h
  split_ifs at h with h1 h2
  have ha : 0 < a := lt_of_not_ge h1
  have hle : a ≤ w.total_balance := le_of_not_gt h2
  have f1 : 0 ≤ (drainBucket a w.promotional_balance).2 :=
    drainBucket_rem_nonneg a _ (le_of_lt ha)
  have f3 : w.promotional_balance - (drainBucket a w.promotional_balance).1 =
      a - (drainBucket a w.promotional_balance).2 :=
    drainBucket_conserve a _
  set p := drainBucket a w.promotional_balance with hpdef
  have f4 : 0 ≤ (drainBucket p.2 w.cashback_balance).2 :=
    drainBucket_rem_nonneg p.2 _ f1
  have f6 : w.cashback_balance - (drainBucket p.2 w.cashback_balance).1 =
      p.2 - (drainBucket p.2 w.cashback_balance).2 :=
    drainBucket_conserve p.2 _
  set q := drainBucket p.2 w.cashback_balance with hqdef
  simp only at h
  by_cases c3 : 0 < q.2
  · rw [if_pos c3] at h
    have hpair := Option.some.inj h
    rw [Prod.ext_iff] at hpair
    obtain ⟨hw', htr⟩ := hpair
    subst hw'
    subst htr
    refine ⟨ha, hle, ?_, rfl, rfl, rfl, rfl⟩
    simp only [Wallet.total_balance]
    linarith
  · rw [if_neg c3] at h
    have hq2 : q.2 = 0 := le_antisymm (le_of_not_lt c3) f4
    have hpair := Option.some.inj h
    rw [Prod.ext_iff] at hpair
    obtain ⟨hw', htr⟩ := hpair
    subst hw'
    subst htr
    refine ⟨ha, hle, ?_, rfl, rfl, rfl, rfl⟩
    simp only [Wallet.total_balance]
    linarith

lemma deduct_balance_insufficient (w : Wallet) (a : Rat) (t : String)
    (h : w.total_balance < a) : w.deduct_balance a t = none := by
  unfold Wallet.deduct_balance
  by_cases h0 : a ≤ 0
  · rw [if_pos h0]
  · rw [if_neg h0, if_pos h]

lemma deduct_balance_isSome (w : Wallet) (a : Rat) (t : String)
    (ha : 0 < a) (hle : a ≤ w.total_balance) :
    (w.deduct_balance a t).isSome = true := by
  unfold Wallet.deduct_balance
  rw [if_neg (not_le.mpr ha), if_neg (not_lt.mpr hle)]
  rfl

lemma add_balance_some (w : Wallet) (a : Rat) (t : String)
    (w' : Wallet) (tr : WalletTransaction)
    (h : w.add_balance a t = some (w', tr)) :
    0 < a ∧ w'.total_balance = w.total_balance + a ∧
    w'.balance = w.balance + a ∧
    w'.cashback_balance = w.cashback_balance ∧
    w'.promotional_balance = w.promotional_balance ∧
    tr.amount = a ∧ tr.balance_after = w'.balance := by
  unfold Wallet.add_balance at h
  split_ifs at h with h1
  have hpair := Option.some.inj h
  rw [Prod.ext_iff] at hpair
  obtain ⟨hw', htr⟩ := hpair
  subst hw'
  subst htr
  refine ⟨lt_of_not_ge h1, ?_, rfl, rfl, rfl, rfl, rfl⟩
  simp only [Wallet.total_balance]
  ring

lemma walletStep_total_nonneg (s : Wallet × List WalletTransaction)
    (op : WalletOp) (h : 0 ≤ s.1.total_balance) :
    0 ≤ (walletStep s op).1.total_balance := by
  cases op with
  | add a =>
    rcases hr : s.1.add_balance a "TOP_UP" with _ | r
    · simpa [walletStep, hr] using h
    · obtain ⟨ha, htot, _⟩ := add_balance_some s.1 a "TOP_UP" r.1 r.2
        (by rw [hr])
      simp only [walletStep, hr]
      rw [htot]
      linarith
  | deduct a =>
    rcases hr : s.1.deduct_balance a "PURCHASE" with _ | r
    · simpa [walletStep, hr] using h
    · obtain ⟨ha, hle, htot, _⟩ := deduct_balance_some s.1 a "PURCHASE" r.1 r.2
        (by rw [hr])
      simp only [walletStep, hr]
      rw [htot]
      linarith

lemma runWallet_total_nonneg (w : Wallet) (ops : List WalletOp)
    (h : 0 ≤ w.total_balance) :
    0 ≤ (runWallet w ops).1.total_balance := by
  unfold runWallet
  have main : ∀ (l : List WalletOp) (s : Wallet × List WalletTransaction),
      0 ≤ s.1.total_balance → 0 ≤ (l.foldl walletStep s).1.total_balance := by
    intro l
    induction l with
    | nil => intro s hs; exact hs
    | cons op t ih =>
      intro s hs
      exact ih (walletStep s op) (walletStep_total_nonneg s op hs)
  exact main ops (w, []) h

lemma signedPointsSum_append (h : List LoyaltyTransaction)
    (t : LoyaltyTransaction) :
    signedPointsSum (h ++ [t]) = signedPointsSum h +
      (if t.transaction_type = "REDEEM" then -t.points else t.points) := by
  simp [signedPointsSum]

lemma redeem_points_some (a : CustomerLoyalty) (p : Int)
    (a' : CustomerLoyalty) (tr : LoyaltyTransaction)
    (h : a.redeem_points p = some (a', tr)) :
    p ≤ a.points_balance ∧ a'.points_balance = a.points_balance - p ∧
    a'.total_points_earned = a.total_points_earned ∧
    a'.total_points_redeemed = a.total_points_redeemed + p ∧
    tr.transaction_type = "REDEEM" ∧ tr.points = p ∧
    tr.balance_after = a'.points_balance := by
  unfold CustomerLoyalty.redeem_points at h
  split_ifs at h with hcond
  have hpair := Option.some.inj h
  rw [Prod.ext_iff] at hpair
  obtain ⟨ha, ht⟩ := hpair
  subst ha
  subst ht
  exact ⟨le_of_not_lt hcond, rfl, rfl, rfl, rfl, rfl, rfl⟩

lemma loyaltyStep_inv (s : CustomerLoyalty × List LoyaltyTransaction)
    (op : LoyaltyOp) (h : loyaltyInv s) : loyaltyInv (loyaltyStep s op) := by
  obtain ⟨h1, h2⟩ := h
  cases op with
  | add p =>
    constructor
    · simp only [loyaltyStep, CustomerLoyalty.add_points]
      rw [signedPointsSum_append]
      simp only [if_neg (by decide : ¬ ("EARN" = "REDEEM"))]
      omega
    · simp only [loyaltyStep, CustomerLoyalty.add_points]
      omega
  | redeem p =>
    rcases hr : s.1.redeem_points p with _ | r
    · simpa [loyaltyStep, hr] using ⟨h1, h2⟩
    · obtain ⟨hle, hbal, hearn, hred, htype, hpts, hafter⟩ :=
        redeem_points_some s.1 p r.1 r.2 (by rw [hr])
      constructor
      · simp only [loyaltyStep, hr]
        have hif : (if ("REDEEM" : String) = "REDEEM" then -p else p) = -p := by
          simp
        rw [signedPointsSum_append, htype, hpts, hif]
        omega
      · simp only [loyaltyStep, hr]
        omega

lemma runLoyalty_inv (ops : List LoyaltyOp) : loyaltyInv (runLoyalty ops) := by
  unfold runLoyalty
  have main : ∀ (l : List LoyaltyOp) (s : CustomerLoyalty × List LoyaltyTransaction),
      loyaltyInv s → loyaltyInv (l.foldl loyaltyStep s) := by
    intro l
    induction l with
    | nil => intro s hs; exact hs
    | cons op t ih => intro s hs; exact ih _ (loyaltyStep_inv s op hs)
  exact main ops (freshLoyalty, [])
    (by constructor <;> simp [freshLoyalty, signedPointsSum])

lemma loyaltyStep_accumulators (s : CustomerLoyalty × List LoyaltyTransaction)
    (op : LoyaltyOp) (h : 0 ≤ op.amount) :
    s.1.total_points_earned ≤ (loyaltyStep s op).1.total_points_earned ∧
    s.1.total_points_redeemed ≤ (loyaltyStep s op).1.total_points_redeemed := by
  cases op with
  | add p =>
    simp only [LoyaltyOp.amount] at h
    simp only [loyaltyStep, CustomerLoyalty.add_points]
    omega
  | redeem p =>
    simp only [LoyaltyOp.amount] at h
    rcases hr : s.1.redeem_points p with _ | r
    · simp [loyaltyStep, hr]
    · obtain ⟨hle, hbal, hearn, hred, _⟩ :=
        redeem_points_some s.1 p r.1 r.2 (by rw [hr])
      simp only [loyaltyStep, hr]
      omega

lemma runLoyalty_balance_nonneg (ops : List LoyaltyOp)
    (h : ∀ op ∈ ops, 0 ≤ op.amount) :
    0 ≤ (runLoyalty ops).1.points_balance := by
  unfold runLoyalty
  have main : ∀ (l : List LoyaltyOp) (s : CustomerLoyalty × List LoyaltyTransaction),
      (∀ op ∈ l, 0 ≤ op.amount) → 0 ≤ s.1.points_balance →
      0 ≤ (l.foldl loyaltyStep s).1.points_balance := by
    intro l
    induction l with
    | nil => intro s _ hs; exact hs
    | cons op t ih =>
      intro s hl hs
      refine ih _ (fun x hx => hl x (List.mem_cons_of_mem op hx)) ?_
      have hop := hl op (List.mem_cons_self op t)
      cases op with
      | add p =>
        simp only [LoyaltyOp.amount] at hop
        simp only [loyaltyStep, CustomerLoyalty.add_points]
        omega
      | redeem p =>
        rcases hr : s.1.redeem_points p with _ | r
        · simpa [loyaltyStep, hr] using hs
        · obtain ⟨hle, hbal, _⟩ :=
            redeem_points_some s.1 p r.1 r.2 (by rw [hr])
          simp only [loyaltyStep, hr]
          omega
  exact main ops (freshLoyalty, []) h (by simp [freshLoyalty])

lemma redeem_points_insufficient (a : CustomerLoyalty) (p : Int)
    (h : a.points_balance < p) : a.redeem_points p = none := by
  unfold CustomerLoyalty.redeem_points
  rw [if_pos h]

lemma runLoyalty_append_one (ops : List LoyaltyOp) (op : LoyaltyOp) :
    runLoyalty (ops ++ [op]) = loyaltyStep (runLoyalty ops) op := by
  unfold runLoyalty
  rw [List.foldl_append]
  rfl

lemma giftcard_redeem_not_active (g : GiftCard) (amount : Rat)
    (order : Option Rat) (today now : Int)
    (h : g.gift_card_status ≠ "ACTIVE") :
    g.redeem amount order today now = none := by
  have hv : g.is_valid today = false := by simp [GiftCard.is_valid, h]
  have hc : g.can_redeem amount order today = false := by
    simp [GiftCard.can_redeem, hv]
  unfold GiftCard.redeem
  rw [hc]
  simp

lemma giftcard_redeem_expired (g : GiftCard) (amount : Rat)
    (order : Option Rat) (today now : Int) (h : g.expiry_date < today) :
    g.redeem amount order today now = none := by
  have hv : g.is_valid today = false := by
    simp [GiftCard.is_valid, not_le.mpr h]
  have hc : g.can_redeem amount order today = false := by
    simp [GiftCard.can_redeem, hv]
  unfold GiftCard.redeem
  rw [hc]
  simp

lemma giftcard_redeem_some (g : GiftCard) (amount : Rat)
    (order : Option Rat) (today now : Int) (g' : GiftCard)
    (tr : GiftCardTransaction)
    (h : g.redeem amount order today now = some (g', tr)) :
    g'.current_balance = g.current_balance - amount ∧
    tr.amount = -amount ∧ tr.balance_after = g'.current_balance := by
  unfold GiftCard.redeem at h
  split_ifs at h with hcond
  have hpair := Option.some.inj h
  rw [Prod.ext_iff] at hpair
  obtain ⟨hg, ht⟩ := hpair
  subst hg
  subst ht
  exact ⟨rfl, rfl, rfl⟩

end LedgerLemmas

section Claims

/-- C4: a wallet debit drains buckets in the fixed order promotional,
cashback, main: with promotional=10, cashback=5, main=100, a debit of 12
leaves promotional=0, cashback=3, main=100 (and records the negated
amount and the new total 103). -/
theorem C4_bucket_drain_order :
    c4wallet.deduct_balance 12 "PURCHASE" =
      some ({ balance := 100, cashback_balance := 3, promotional_balance := 0,
              is_active := true, is_frozen := false },
            { transaction_type := "PURCHASE", amount := -12,
              balance_after := 103 }) := by
  norm_num [c4wallet, Wallet.deduct_balance, drainBucket, Wallet.total_balance,
    min_def]

/-- C5: redeeming a 500-balance gift card for 500 in one call yields
balance 0 and status `REDEEMED`, and every subsequent redemption attempt
of any positive amount raises and (returning `none`) changes nothing. -/
theorem C5_full_redemption_terminal :
    c5card.redeem 500 none 0 0 =
      some (c5after, { transaction_type := "REDEMPTION", amount := -500,
                       balance_after := 0 }) ∧
    ∀ amt : Rat, 0 < amt → c5after.redeem amt none 0 0 = none := by
  constructor
  · norm_num [c5card, c5after, GiftCard.redeem, GiftCard.can_redeem,
      GiftCard.is_valid]
  · intro amt _
    exact giftcard_redeem_not_active c5after amt none 0 0 (by decide)

/-- Witness for C5: the second redemption attempt, at amount 1. -/
theorem C5_full_redemption_terminal_witness :
    c5after.redeem 1 none 0 0 = none :=
  C5_full_redemption_terminal.2 1 (by norm_num)

/-- C1 fails as stated: the loyalty history records `REDEEM` rows with the
raw positive `points` value, so after crediting 10 and debiting 5 the
balance is 5 but the sum of the history's `points` fields is 15. -/
theorem C1_counterexample :
    ¬ ((runLoyalty [LoyaltyOp.add 10, LoyaltyOp.redeem 5]).1.points_balance =
        pointsSum (runLoyalty [LoyaltyOp.add 10, LoyaltyOp.redeem 5]).2) := by
  decide

/-- C1 amended: after every sequence of credits/debits on a fresh loyalty
account, the balance equals the history sum with `REDEEM` entries counted
negatively (not the raw sum of the stored `points` fields), the balance
equals `total_points_earned - total_points_redeemed`, and appending one
further operation of non-negative amount never decreases either lifetime
accumulator. -/
theorem C1_loyalty_ledger_invariants (ops : List LoyaltyOp) (op : LoyaltyOp)
    (hpos : 0 ≤ op.amount) :
    (runLoyalty ops).1.points_balance = signedPointsSum (runLoyalty ops).2 ∧
    (runLoyalty ops).1.points_balance =
      (runLoyalty ops).1.total_points_earned -
        (runLoyalty ops).1.total_points_redeemed ∧
    (runLoyalty ops).1.total_points_earned ≤
      (runLoyalty (ops ++ [op])).1.total_points_earned ∧
    (runLoyalty ops).1.total_points_redeemed ≤
      (runLoyalty (ops ++ [op])).1.total_points_redeemed := by
  obtain ⟨h1, h2⟩ := runLoyalty_inv ops
  obtain ⟨h3, h4⟩ := loyaltyStep_accumulators (runLoyalty ops) op hpos
  rw [runLoyalty_append_one]
  exact ⟨h1, h2, h3, h4⟩

/-- Witness for C1: a credit of 10 then a further debit of 5. -/
theorem C1_loyalty_ledger_invariants_witness :
    (runLoyalty [LoyaltyOp.add 10]).1.points_balance =
      signedPointsSum (runLoyalty [LoyaltyOp.add 10]).2 ∧
    (runLoyalty [LoyaltyOp.add 10]).1.points_balance =
      (runLoyalty [LoyaltyOp.add 10]).1.total_points_earned -
        (runLoyalty [LoyaltyOp.add 10]).1.total_points_redeemed ∧
    (runLoyalty [LoyaltyOp.add 10]).1.total_points_earned ≤
      (runLoyalty ([LoyaltyOp.add 10] ++ [LoyaltyOp.redeem 5])).1.total_points_earned ∧
    (runLoyalty [LoyaltyOp.add 10]).1.total_points_redeemed ≤
      (runLoyalty ([LoyaltyOp.add 10] ++ [LoyaltyOp.redeem 5])).1.total_points_redeemed :=
  C1_loyalty_ledger_invariants [LoyaltyOp.add 10] (LoyaltyOp.redeem 5)
    (by decide)

/-- C2: a debit exceeding the available balance raises (`none`) for both
the wallet (checked against the three-bucket total) and the loyalty
account, the failed wallet debit leaves the state and history unchanged
(all-or-nothing), and no sequence of operations drives a non-negative
wallet total balance, or a fresh loyalty balance, below zero. -/
theorem C2_insufficient_debit_rejected :
    (∀ (w : Wallet) (a : Rat) (t : String),
      w.total_balance < a → w.deduct_balance a t = none) ∧
    (∀ (a : CustomerLoyalty) (p : Int),
      a.points_balance < p → a.redeem_points p = none) ∧
    (∀ (w : Wallet) (hist : List WalletTransaction) (a : Rat),
      w.total_balance < a → walletStep (w, hist) (WalletOp.deduct a) = (w, hist)) ∧
    (∀ (w : Wallet) (ops : List WalletOp),
      0 ≤ w.total_balance → 0 ≤ (runWallet w ops).1.total_balance) ∧
    (∀ ops : List LoyaltyOp, (∀ op ∈ ops, 0 ≤ op.amount) →
      0 ≤ (runLoyalty ops).1.points_balance) := by
  refine ⟨deduct_balance_insufficient, redeem_points_insufficient, ?_,
    runWallet_total_nonneg, runLoyalty_balance_nonneg⟩
  intro w hist a h
  simp [walletStep, deduct_balance_insufficient w a "PURCHASE" h]

/-- Witness for C2: a wallet holding 5 in total refuses a debit of 6 and
is left unchanged. -/
theorem C2_insufficient_debit_rejected_witness :
    Wallet.deduct_balance
      { balance := 5, cashback_balance := 0, promotional_balance := 0,
        is_active := true, is_frozen := false } 6 "PURCHASE" = none ∧
    walletStep
      ({ balance := 5, cashback_balance := 0, promotional_balance := 0,
         is_active := true, is_frozen := false }, []) (WalletOp.deduct 6) =
      ({ balance := 5, cashback_balance := 0, promotional_balance := 0,
         is_active := true, is_frozen := false }, []) :=
  ⟨C2_insufficient_debit_rejected.1 _ 6 "PURCHASE"
      (by norm_num [Wallet.total_balance]),
   C2_insufficient_debit_rejected.2.2.1 _ [] 6
      (by norm_num [Wallet.total_balance])⟩

/-- C3: sequential allocation with no concurrent writers.  For every
scope and any `N` within the width's capacity, `N` allocations from an
empty table yield exactly the identifiers `scope ++ pad(k)` for
consecutive `k = 1..N` (hence `N` distinct identifiers); order numbers
use width 6, sale numbers width 4; in particular 3 order numbers for
tenant `mp` on 2024-05-01 are exactly `mpO20240501000001..3`. -/
theorem C3_sequential_allocation :
    (∀ (entity dateStr : List Char) (N : Nat), N ≤ 999999 →
      allocOrderNumbers entity dateStr N =
        some (seqIdentList (entity.take 2 ++ ['O'] ++ dateStr) 6 N) ∧
      (seqIdentList (entity.take 2 ++ ['O'] ++ dateStr) 6 N).Nodup) ∧
    (∀ (entity dateStr : List Char) (N : Nat), N ≤ 9999 →
      allocSaleNumbers entity dateStr N =
        some (seqIdentList (entity.take 2 ++ ['S'] ++ dateStr) 4 N) ∧
      (seqIdentList (entity.take 2 ++ ['S'] ++ dateStr) 4 N).Nodup) ∧
    allocOrderNumbers "mp".data "20240501".data 3 =
      some ["mpO20240501000001".data, "mpO20240501000002".data,
            "mpO20240501000003".data] := by
  refine ⟨?_, ?_, by decide⟩
  · intro entity dateStr N h
    exact ⟨allocOrderNumbers_eq entity dateStr N h, seqIdentList_nodup _ 6 N⟩
  · intro entity dateStr N h
    exact ⟨allocSaleNumbers_eq entity dateStr N h, seqIdentList_nodup _ 4 N⟩

/-- Witness for C3: two order-number allocations for tenant `mp`. -/
theorem C3_sequential_allocation_witness :
    allocOrderNumbers "mp".data "20240501".data 2 =
      some (seqIdentList ("mp".data.take 2 ++ ['O'] ++ "20240501".data) 6 2) ∧
    (seqIdentList ("mp".data.take 2 ++ ['O'] ++ "20240501".data) 6 2).Nodup :=
  C3_sequential_allocation.1 "mp".data "20240501".data 2 (by norm_num)

/-- C6 fails as stated: `CustomerLoyalty.add_points` performs no
positivity check (crediting -5 mutates a fresh account's balance to -5),
and `GiftCard.redeem` accepts a non-positive amount on a valid card --
redeeming -5 against a 500-balance card succeeds and raises the balance
to 505 instead of rejecting before mutation. -/
theorem C6_counterexample :
    (freshLoyalty.add_points (-5)).1.points_balance = -5 ∧
    c5card.redeem (-5) none 0 0 =
      some ({ code := "GC1".data, gift_card_status := "ACTIVE",
              current_balance := 505, expiry_date := 1,
              minimum_order_amount := 0, times_used := 1,
              first_used_at := some 0, last_used_at := some 0 },
            { transaction_type := "REDEMPTION", amount := 5,
              balance_after := 505 }) := by
  constructor
  · decide
  · norm_num [c5card, GiftCard.redeem, GiftCard.can_redeem, GiftCard.is_valid]

/-- C6 amended: only the wallet operations validate the sign -- both
`add_balance` and `deduct_balance` raise on a non-positive amount before
any mutation; `add_points`, `redeem_points` and `GiftCard.redeem` perform
no such validation. -/
theorem C6_nonpositive_amount_rejected (w : Wallet) (a : Rat) (t : String)
    (h : a ≤ 0) : w.add_balance a t = none ∧ w.deduct_balance a t = none := by
  constructor
  · unfold Wallet.add_balance
    rw [if_pos h]
  · unfold Wallet.deduct_balance
    rw [if_pos h]

/-- Witness for C6: amount 0 against the spec's example wallet. -/
theorem C6_nonpositive_amount_rejected_witness :
    c4wallet.add_balance 0 "TOP_UP" = none ∧
    c4wallet.deduct_balance 0 "PURCHASE" = none :=
  ⟨(C6_nonpositive_amount_rejected c4wallet 0 "TOP_UP" (by norm_num)).1,
   (C6_nonpositive_amount_rejected c4wallet 0 "PURCHASE" (by norm_num)).2⟩

/-- C7 fails as stated: with a corrupt stored suffix,
`generate_order_number` raises (`none`) instead of falling back to 1, and
`generate_display_id` falls back to 1000, not 1. -/
theorem C7_counterexample :
    generate_order_number "mp".data "20240501".data
      ["mpO20240501ABCDEF".data] = none ∧
    generate_display_id "mp".data ["mpABC".data] = "mp1000".data := by
  decide

/-- C7 amended: only `generate_customer_code` silently repairs an
unparsable suffix by restarting at 1; `generate_display_id` falls back to
its floor 1000; the dated generators (`generate_order_number`,
`generate_sale_number`) have no repair and raise `ValueError` (`none`)
when the lexicographically last stored identifier's trailing digits do
not parse. -/
theorem C7_corrupt_suffix_fallback :
    (∀ (entity : List Char) (store : List (List Char)) (last : List Char),
      lexMaxList (store.filter
        (fun s => startsWith (entity.take 2 ++ ['C']) s)) = some last →
      parseDigits (last.drop 3) = none →
      generate_customer_code entity store =
        entity.take 2 ++ ['C'] ++ padNum 5 1) ∧
    (∀ (entity : List Char) (store : List (List Char)) (d : List Char),
      store.getLast? = some d → d.isEmpty = false →
      parseDigits (d.drop 2) = none →
      generate_display_id entity store = entity.take 2 ++ digitsOf 1000) ∧
    (∀ (entity dateStr : List Char) (store : List (List Char))
      (last : List Char),
      lexMaxList (store.filter
        (fun s => startsWith (entity.take 2 ++ ['O'] ++ dateStr) s)) =
          some last →
      parseDigits (takeLast 6 last) = none →
      generate_order_number entity dateStr store = none) ∧
    (∀ (entity dateStr : List Char) (store : List (List Char))
      (last : List Char),
      lexMaxList (store.filter
        (fun s => startsWith (entity.take 2 ++ ['S'] ++ dateStr) s)) =
          some last →
      parseDigits (takeLast 4 last) = none →
      generate_sale_number entity dateStr store = none) := by
  refine ⟨?_, ?_, ?_, ?_⟩
  · intro entity store last hmax hparse
    simp only [generate_customer_code]
    rw [hmax]
    simp only [hparse]
  · intro entity store d hlast hne hparse
    simp only [generate_display_id]
    rw [hlast]
    simp [hne, hparse]
  · intro entity dateStr store last hmax hparse
    simp only [generate_order_number, nextFromStore]
    rw [hmax]
    simp only [hparse]
  · intro entity dateStr store last hmax hparse
    simp only [generate_sale_number, nextFromStore]
    rw [hmax]
    simp only [hparse]

/-- Witness for C7: concrete corrupt stores for the repairing and the
raising generators. -/
theorem C7_corrupt_suffix_fallback_witness :
    generate_customer_code "mp".data ["mpCXXXXX".data] =
      "mp".data.take 2 ++ ['C'] ++ padNum 5 1 ∧
    generate_sale_number "mp".data "20240501".data
      ["mpS20240501XYZW".data] = none :=
  ⟨C7_corrupt_suffix_fallback.1 "mp".data ["mpCXXXXX".data]
      "mpCXXXXX".data (by decide) (by decide),
   C7_corrupt_suffix_fallback.2.2.2 "mp".data "20240501".data
      ["mpS20240501XYZW".data] "mpS20240501XYZW".data (by decide) (by decide)⟩

/-- C8 fails as stated: `Wallet.add_balance` snapshots only the main
bucket.  Crediting 5 to a wallet with main 0 and promotional 10 records
`balance_after = 5` while the account's full balance is 15. -/
theorem C8_counterexample :
    (Wallet.add_balance
      { balance := 0, cashback_balance := 0, promotional_balance := 10,
        is_active := true, is_frozen := false } 5 "TOP_UP").map
      (fun r => (r.2.balance_after, r.1.total_balance)) = some (5, 15) ∧
    (5 : Rat) ≠ 15 := by
  constructor
  · norm_num [Wallet.add_balance, Wallet.total_balance]
  · norm_num

/-- C8 amended: the recorded `balance_after` equals the account's full
balance for wallet debits, loyalty credits/debits and gift-card
redemptions; for `Wallet.add_balance` it records the main bucket only,
which equals the full balance exactly when the cashback and promotional
buckets are empty. -/
theorem C8_balance_after_snapshot :
    (∀ (w : Wallet) (a : Rat) (t : String) (w' : Wallet)
      (tr : WalletTransaction), w.deduct_balance a t = some (w', tr) →
      tr.balance_after = w'.total_balance) ∧
    (∀ (acct : CustomerLoyalty) (p : Int),
      (acct.add_points p).2.balance_after =
        (acct.add_points p).1.points_balance) ∧
    (∀ (acct : CustomerLoyalty) (p : Int) (a' : CustomerLoyalty)
      (tr : LoyaltyTransaction), acct.redeem_points p = some (a', tr) →
      tr.balance_after = a'.points_balance) ∧
    (∀ (g : GiftCard) (amount : Rat) (order : Option Rat) (today now : Int)
      (g' : GiftCard) (tr : GiftCardTransaction),
      g.redeem amount order today now = some (g', tr) →
      tr.balance_after = g'.current_balance) ∧
    (∀ (w : Wallet) (a : Rat) (t : String) (w' : Wallet)
      (tr : WalletTransaction), w.add_balance a t = some (w', tr) →
      tr.balance_after = w'.balance ∧
      (w.cashback_balance + w.promotional_balance = 0 →
        tr.balance_after = w'.total_balance)) := by
  refine ⟨?_, ?_, ?_, ?_, ?_⟩
  · intro w a t w' tr h
    exact (deduct_balance_some w a t w' tr h).2.2.2.2.1
  · intro acct p
    rfl
  · intro acct p a' tr h
    exact (redeem_points_some acct p a' tr h).2.2.2.2.2.2
  · intro g amount order today now g' tr h
    exact (giftcard_redeem_some g amount order today now g' tr h).2.2
  · intro w a t w' tr h
    obtain ⟨_, _, hbal, hcb, hpromo, _, hafter⟩ :=
      add_balance_some w a t w' tr h
    refine ⟨hafter, fun hz => ?_⟩
    rw [hafter]
    simp only [Wallet.total_balance, hcb, hpromo]
    linarith

/-- Witness for C8: the spec's drain example -- after deducting 12 the
recorded snapshot 103 is the post-debit full balance. -/
theorem C8_balance_after_snapshot_witness :
    WalletTransaction.balance_after
      { transaction_type := "PURCHASE", amount := -12, balance_after := 103 } =
    Wallet.total_balance
      { balance := 100, cashback_balance := 3, promotional_balance := 0,
        is_active := true, is_frozen := false } :=
  C8_balance_after_snapshot.1 c4wallet 12 "PURCHASE" _ _
    (by norm_num [c4wallet, Wallet.deduct_balance, drainBucket,
      Wallet.total_balance, min_def])

/-- C9 fails as stated: `Wallet.deduct_balance` never consults
`is_frozen`/`is_active` -- a frozen wallet holding 100 is debited 50
successfully, its balance dropping to 50. -/
theorem C9_counterexample :
    Wallet.is_frozen
      { balance := 100, cashback_balance := 0, promotional_balance := 0,
        is_active := true, is_frozen := true } = true ∧
    Wallet.deduct_balance
      { balance := 100, cashback_balance := 0, promotional_balance := 0,
        is_active := true, is_frozen := true } 50 "PURCHASE" =
      some ({ balance := 50, cashback_balance := 0, promotional_balance := 0,
              is_active := true, is_frozen := true },
            { transaction_type := "PURCHASE", amount := -50,
              balance_after := 50 }) := by
  constructor
  · rfl
  · norm_num [Wallet.deduct_balance, drainBucket, Wallet.total_balance,
      min_def]

/-- C9 amended: a gift card in a non-`ACTIVE` (terminal) state or past
its expiry rejects every redemption with no mutation; the wallet,
however, performs no frozen/inactive check -- a debit within the balance
succeeds even on a frozen wallet. -/
theorem C9_terminal_state_debit :
    (∀ (g : GiftCard) (amount : Rat) (order : Option Rat) (today now : Int),
      g.gift_card_status ≠ "ACTIVE" → g.redeem amount order today now = none) ∧
    (∀ (g : GiftCard) (amount : Rat) (order : Option Rat) (today now : Int),
      g.expiry_date < today → g.redeem amount order today now = none) ∧
    (∀ (w : Wallet) (a : Rat) (t : String), w.is_frozen = true → 0 < a →
      a ≤ w.total_balance → (w.deduct_balance a t).isSome = true) :=
  ⟨fun g amount order today now h =>
      giftcard_redeem_not_active g amount order today now h,
   fun g amount order today now h =>
      giftcard_redeem_expired g amount order today now h,
   fun w a t _ ha hle => deduct_balance_isSome w a t ha hle⟩

/-- Witness for C9: the fully redeemed card `c5after` rejects a further
redemption of 7; a frozen wallet accepts a debit of 50. -/
theorem C9_terminal_state_debit_witness :
    c5after.redeem 7 none 0 0 = none ∧
    (Wallet.deduct_balance
      { balance := 100, cashback_balance := 0, promotional_balance := 0,
        is_active := true, is_frozen := true } 50 "PURCHASE").isSome = true :=
  ⟨C9_terminal_state_debit.1 c5after 7 none 0 0 (by decide),
   C9_terminal_state_debit.2.2 _ 50 "PURCHASE" rfl (by norm_num)
     (by norm_num [Wallet.total_balance])⟩

/-- C10: `save` assigns an identifier only when the field is empty:
re-saving a record whose `order_number`, `display_id`, `payment_id` or
gift-card `code` is already non-empty leaves that field unchanged. -/
theorem C10_identifiers_assigned_once :
    (∀ (o : Order) (dateStr : List Char) (ns ds : List (List Char)),
      o.order_number ≠ [] → ∃ o', Order.save o dateStr ns ds = some o' ∧
        o'.order_number = o.order_number) ∧
    (∀ (o : Order) (dateStr : List Char) (ns ds : List (List Char))
      (o' : Order), Order.save o dateStr ns ds = some o' →
      o.display_id ≠ [] → o'.display_id = o.display_id) ∧
    (∀ (p : Payment) (dateStr : List Char) (ps : List (List Char)),
      p.payment_id ≠ [] → ∃ p', Payment.save p dateStr ps = some p' ∧
        p'.payment_id = p.payment_id) ∧
    (∀ (g : GiftCard) (newCode : List Char),
      g.code ≠ [] → (g.save newCode).code = g.code) := by
  refine ⟨?_, ?_, ?_, ?_⟩
  · intro o dateStr ns ds h
    have he : o.order_number.isEmpty = false := by
      simpa [List.isEmpty_iff] using h
    unfold Order.save
    rw [he]
    exact ⟨_, rfl, rfl⟩
  · intro o dateStr ns ds o' hsave h
    have he : o.display_id.isEmpty = false := by
      simpa [List.isEmpty_iff] using h
    unfold Order.save at hsave
    rw [he] at hsave
    rcases hnum : (if o.order_number.isEmpty = true
        then generate_order_number o.entity dateStr ns
        else some o.order_number) with _ | num
    · rw [hnum] at hsave
      cases hsave
    · rw [hnum] at hsave
      have h2 := Option.some.inj hsave
      rw [← h2]
      simp
  · intro p dateStr ps h
    have he : p.payment_id.isEmpty = false := by
      simpa [List.isEmpty_iff] using h
    unfold Payment.save
    rw [he]
    exact ⟨_, rfl, rfl⟩
  · intro g newCode h
    have he : g.code.isEmpty = false := by
      simpa [List.isEmpty_iff] using h
    unfold GiftCard.save
    rw [he]
    simp

/-- Witness for C10: re-saving `c5card`, whose code is `GC1`, never
replaces the code. -/
theorem C10_identifiers_assigned_once_witness :
    (c5card.save "ZZZZ".data).code = c5card.code :=
  C10_identifiers_assigned_once.2.2.2 c5card "ZZZZ".data (by decide)

end Claims
